import Mathlib

/-!
Verification of `lib/Dialect/Torch/Transforms/ReifyDtypeCalculations.cpp`
(torch-mlir), a pass that wraps ops having a matching dtype library
function in a `torch.dtype.calculate` op.

The embedding models:
* the Torch type hierarchy relevant to the pass (`Ty`);
* MLIR SSA values, with the ops the pass emits (`AtenSizeOp`,
  `AtenLenTOp`, `PrimDtypeOp`) represented as value-forming nodes
  (`Value`);
* `isTensorTypeOrWrappedTensorType`, including its `assert` on tuple
  types (an `Option Bool` whose `none` is the assertion firing);
* `dtypeFunctionArgsBuilder`, parameterized by the external
  `adjustFunctionArg` helper (defined in
  `ReifyAbstractInterpCalculationsUtils.cpp`, outside this file's
  source), with a three-valued result distinguishing the recoverable
  `failure()` return from a tripped C `assert`;
* the pass driver `runOnOperation`, over a fold-with-interrupt model of
  `module.walk`, parameterized by the external wrap utility.
-/

namespace ReifyDtype

/-- The Torch dialect types relevant to the pass.  `tensor` stands for
any `Torch::BaseTensorType`; `tuple` carries its contained types (which
the pass never inspects); `other` covers the remaining scalar/opaque
types (float, str, ...). -/
inductive Ty where
  | tensor : Ty
  | int : Ty
  | bool : Ty
  | number : Ty
  | optional : Ty → Ty
  | list : Ty → Ty
  | tuple : List Ty → Ty
  | other : Nat → Ty
  deriving Repr

/-- Structural boolean equality on `Ty` (nested induction through the
tuple payload list). -/
def Ty.beq : Ty → Ty → Bool
  | .tensor, .tensor => true
  | .int, .int => true
  | .bool, .bool => true
  | .number, .number => true
  | .optional a, .optional b => Ty.beq a b
  | .list a, .list b => Ty.beq a b
  | .tuple as, .tuple bs => go as bs
  | .other m, .other n => m == n
  | _, _ => false
where
  go : List Ty → List Ty → Bool
    | [], [] => true
    | a :: as, b :: bs => Ty.beq a b && go as bs
    | _, _ => false

instance : BEq Ty := ⟨Ty.beq⟩

/-- `type.isa<Torch::IntType>()`. -/
def Ty.isInt : Ty → Bool
  | .int => true
  | _ => false

/-- `type.isa<Torch::BaseTensorType>()`. -/
def Ty.isBaseTensor : Ty → Bool
  | .tensor => true
  | _ => false

/-- SSA values.  `arg` is a pre-existing value (identified by a numeric
id) of a given type; the other constructors are the results of the ops
the adjusters emit (`b.create<AtenSizeOp>`, `b.create<AtenLenTOp>`,
`b.create<PrimDtypeOp>`), each carrying its result type. -/
inductive Value where
  | arg : Nat → Ty → Value
  | atenSize : Value → Ty → Value
  | atenLenT : Value → Ty → Value
  | primDtype : Value → Ty → Value
  deriving Repr

/-- `Value::getType()`. -/
def Value.getType : Value → Ty
  | .arg _ ty => ty
  | .atenSize _ ty => ty
  | .atenLenT _ ty => ty
  | .primDtype _ ty => ty

/-- `isTensorTypeOrWrappedTensorType` (ReifyDtypeCalculations.cpp,
lines 22-43).  The C++ function `assert`s that the type is not a
`Torch::TupleType`; that assertion firing is modelled as `none`, a
normal boolean answer as `some b`.  The function is pure: it only
inspects its argument. -/
def isTensorTypeOrWrappedTensorType : Ty → Option Bool
  | .tuple _ => none
  | .tensor => some true
  | .optional inner => isTensorTypeOrWrappedTensorType inner
  | .list inner => isTensorTypeOrWrappedTensorType inner
  | _ => some false

/-- The `rankArgAdjuster` lambda inside `dtypeFunctionArgsBuilder`
(lines 53-63): if the desired type is `Torch::IntType` and the operand
is directly a `Torch::BaseTensorType`, emit `AtenSizeOp` (with type
`list<int>`) then `AtenLenTOp` (with the desired type); otherwise
return the operand unchanged. -/
def rankArgAdjuster (operand : Value) (desiredType : Ty) : Value :=
  if desiredType.isInt && operand.getType.isBaseTensor then
    Value.atenLenT (Value.atenSize operand (Ty.list Ty.int)) desiredType
  else
    operand

/-- The `dtypeArgAdjuster` lambda inside `dtypeFunctionArgsBuilder`
(lines 66-73): if the desired type is `Torch::IntType` and the operand
is directly a `Torch::BaseTensorType`, emit `PrimDtypeOp` with the
desired type; otherwise return the operand unchanged. -/
def dtypeArgAdjuster (operand : Value) (desiredType : Ty) : Value :=
  if desiredType.isInt && operand.getType.isBaseTensor then
    Value.primDtype operand desiredType
  else
    operand

/-- The identity base transformation: the default argument of the
external `adjustFunctionArg`, used by the 4-argument call on line 98. -/
def identityAdjuster (operand : Value) (_desiredType : Ty) : Value :=
  operand

/-- Result of `dtypeFunctionArgsBuilder`.  `ok`/`failure` are the two
values of `FailureOr<SmallVector<Value>>`; `assertFail` models a C
`assert` firing (process abort in assertion-enabled builds), which is
distinct from returning `failure()`. -/
inductive BuilderResult where
  | ok : List Value → BuilderResult
  | failure : BuilderResult
  | assertFail : BuilderResult
  deriving Repr

/-- The external `adjustFunctionArg` is abstracted as a function from an
operand, a desired type, and a base transformation to `Option Value`
(`some` = success, `none` = `failure()`). -/
abbrev AdjustFn := Value → Ty → (Value → Ty → Value) → Option Value

/-- The loop of `dtypeFunctionArgsBuilder` (lines 75-105), parameterized
by the external `adjustFunctionArg` helper.  For each original operand:
`assert` the signature is non-empty; if the operand's type is
tensor-or-wrapped-tensor, `assert` at least two signature slots remain,
adjust with `rankArgAdjuster` against the first slot and with
`dtypeArgAdjuster` against the second, and append both (rank first);
otherwise adjust the operand alone against one slot.  Any adjuster
failure returns `failure()` immediately.  Leftover signature slots
after the last operand are not checked. -/
def dtypeFunctionArgsBuilderWith (adjust : AdjustFn) :
    List Value → List Ty → BuilderResult
  | [], _ => BuilderResult.ok []
  | operand :: restOperands, desiredTypes =>
    match desiredTypes with
    | [] => BuilderResult.assertFail
    | desiredType :: restTypes =>
      match isTensorTypeOrWrappedTensorType operand.getType with
      | none => BuilderResult.assertFail
      | some true =>
        match restTypes with
        | [] => BuilderResult.assertFail
        | desiredType2 :: restTypes2 =>
          match adjust operand desiredType rankArgAdjuster with
          | none => BuilderResult.failure
          | some rankArg =>
            match adjust operand desiredType2 dtypeArgAdjuster with
            | none => BuilderResult.failure
            | some dtypeArg =>
              match dtypeFunctionArgsBuilderWith adjust restOperands restTypes2 with
              | BuilderResult.ok args => BuilderResult.ok (rankArg :: dtypeArg :: args)
              | e => e
      | some false =>
        match adjust operand desiredType identityAdjuster with
        | none => BuilderResult.failure
        | some otherArg =>
          match dtypeFunctionArgsBuilderWith adjust restOperands restTypes with
          | BuilderResult.ok args => BuilderResult.ok (otherArg :: args)
          | e => e

/-- Modelled from the spec: the generic single-slot adjuster
`adjustFunctionArg` lives in `ReifyAbstractInterpCalculationsUtils.cpp`,
which is not part of this source.  Per the spec it applies the base
transformation, performs identity pass-through when the resulting value
already has the desired type, and fails when no legal coercion
exists. -/
def adjustFunctionArg : AdjustFn := fun operand desiredType adjuster =>
  let adjusted := adjuster operand desiredType
  if adjusted.getType == desiredType then some adjusted else none

/-- `dtypeFunctionArgsBuilder` (lines 49-106): the loop instantiated
with the external `adjustFunctionArg`. -/
def dtypeFunctionArgsBuilder : List Value → List Ty → BuilderResult :=
  dtypeFunctionArgsBuilderWith adjustFunctionArg

/-! ### Pass driver (`ReifyDtypeCalculationsPass::runOnOperation`) -/

/-- An operation visited by `module.walk`, identified by its name (the
key used for the dtype-function lookup). -/
structure Op where
  name : String
  deriving Repr, DecidableEq

/-- A dtype library function: its symbol name and declared parameter
types. -/
structure LibraryFn where
  name : String
  argTypes : List Ty
  deriving Repr

/-- The mutable state threaded through the walk: the `functionsNeeded`
vector from `runOnOperation`, plus a record of which ops have been
wrapped (rewritten) so far, so "program unchanged" is expressible. -/
structure WalkState where
  functionsNeeded : List String
  wrappedOps : List String
  deriving Repr, DecidableEq

/-- The empty state at the start of `runOnOperation` (line 119). -/
def initState : WalkState := ⟨[], []⟩

/-- `module.walk` with MLIR interrupt semantics: the callback is applied
to each operation in order; `none` (`WalkResult::interrupt()`) stops the
walk immediately, `some` (`WalkResult::advance()`) continues with the
updated state. -/
def walkModule (step : Op → WalkState → Option WalkState) :
    List Op → WalkState → Option WalkState
  | [], st => some st
  | op :: rest, st =>
    match step op st with
    | none => none
    | some st' => walkModule step rest st'

/-- Append a name to an accumulator only if it is not already present
(the duplicate-free insertion the needed-functions set performs). -/
def insertIfAbsent (acc : List String) (n : String) : List String :=
  if n ∈ acc then acc else acc ++ [n]

/-- First-discovery deduplication: keeps the first occurrence of each
name, in encounter order. -/
def firstDiscovery (names : List String) : List String :=
  names.foldl insertIfAbsent []

/-- Modelled from the spec: `wrapWithCalculateOpIfLibraryFunctionAvailable`
lives in `ReifyAbstractInterpCalculationsUtils.cpp`, which is not part of
this source.  Per the spec, it looks the operation's name up in the
library (restricted to dtype-kind functions, here `library`); with no
match the operation is left untouched and the walk continues; with a
match it attempts the structural wrap (abstracted by `wrapSucceeds`,
which subsumes the argument-adapter call), and on success records the
shadow function's name in the needed set without introducing duplicates,
returning `WalkResult::interrupt()` (`none`) on failure. -/
def wrapWithCalculateOpIfLibraryFunctionAvailable
    (library : String → Option LibraryFn) (wrapSucceeds : Op → LibraryFn → Bool)
    (op : Op) (st : WalkState) : Option WalkState :=
  match library op.name with
  | none => some st
  | some fn =>
    if wrapSucceeds op fn then
      some ⟨insertIfAbsent st.functionsNeeded fn.name, st.wrappedOps ++ [op.name]⟩
    else
      none

/-- The observable outcome of one `runOnOperation` invocation: whether
`signalPassFailure` was called, and the argument of each
`importLibraryFunctions` call (in call order). -/
structure PassRun where
  passFailed : Bool
  importCalls : List (List String)
  deriving Repr, DecidableEq

/-- `ReifyDtypeCalculationsPass::runOnOperation` (lines 111-129),
parameterized by the walk callback: walk all operations; if the walk
was interrupted, signal pass failure and return without importing;
otherwise call `importLibraryFunctions` once with the accumulated
needed-function names. -/
def runOnOperationWith (step : Op → WalkState → Option WalkState)
    (ops : List Op) : PassRun :=
  match walkModule step ops initState with
  | none => ⟨true, []⟩
  | some st => ⟨false, [st.functionsNeeded]⟩

/-- `runOnOperation` with the (spec-modelled) wrap utility plugged in as
the walk callback. -/
def runOnOperation (library : String → Option LibraryFn)
    (wrapSucceeds : Op → LibraryFn → Bool) (ops : List Op) : PassRun :=
  runOnOperationWith (wrapWithCalculateOpIfLibraryFunctionAvailable library wrapSucceeds) ops

/-- The precondition "no tuple type reaches the classifier": no tuple
appears along the optional/list spine that
`isTensorTypeOrWrappedTensorType` recurses on. -/
def tupleFreeSpine : Ty → Bool
  | .tuple _ => false
  | .optional inner => tupleFreeSpine inner
  | .list inner => tupleFreeSpine inner
  | _ => true

/-- A concrete dtype library with a single entry for `aten.tanh`, used
to instantiate the driver theorems. -/
def tanhLibrary : String → Option LibraryFn := fun n =>
  if n = "aten.tanh" then
    some ⟨"__torch_mlir_dtype_fn.aten.tanh", [Ty.int, Ty.int]⟩
  else
    none

/-! ### Helper lemmas -/

theorem Ty.isInt_iff (t : Ty) : t.isInt = true ↔ t = Ty.int := by
  cases t <;> simp [Ty.isInt]

theorem Ty.isBaseTensor_iff (t : Ty) : t.isBaseTensor = true ↔ t = Ty.tensor := by
  cases t <;> simp [Ty.isBaseTensor]

theorem tupleFreeSpine_classifies : ∀ t : Ty, tupleFreeSpine t = true →
    isTensorTypeOrWrappedTensorType t ≠ none
  | .tensor, _ => fun h => Option.noConfusion h
  | .int, _ => fun h => Option.noConfusion h
  | .bool, _ => fun h => Option.noConfusion h
  | .number, _ => fun h => Option.noConfusion h
  | .other _, _ => fun h => Option.noConfusion h
  | .optional inner, h => tupleFreeSpine_classifies inner h
  | .list inner, h => tupleFreeSpine_classifies inner h
  | .tuple _, h => Bool.noConfusion h

/-- The number of signature slots (and adapted values) a successfully
processed operand accounts for: two when its type is
tensor-or-wrapped-tensor, one otherwise. -/
def operandSlotWeight (v : Value) : Nat :=
  match isTensorTypeOrWrappedTensorType v.getType with
  | some true => 2
  | _ => 1

/-! ### Claims about the tensor-type classifier and the local adjusters -/

/-- Claim C4: for every non-Tuple type, `isTensorTypeOrWrappedTensorType`
returns true on a tensor type, returns the recursive classification of
the contained type on `Optional(inner)` and `List(inner)`, and returns
false on every other type.  (The Lean embedding is a pure function, as
the C++ function only inspects its argument.) -/
theorem isTensorTypeOrWrappedTensorType_characterization :
    (isTensorTypeOrWrappedTensorType Ty.tensor = some true) ∧
    (∀ inner, isTensorTypeOrWrappedTensorType (Ty.optional inner) =
        isTensorTypeOrWrappedTensorType inner) ∧
    (∀ inner, isTensorTypeOrWrappedTensorType (Ty.list inner) =
        isTensorTypeOrWrappedTensorType inner) ∧
    (∀ t : Ty, (∀ ts, t ≠ Ty.tuple ts) → t ≠ Ty.tensor →
        (∀ inner, t ≠ Ty.optional inner) → (∀ inner, t ≠ Ty.list inner) →
        isTensorTypeOrWrappedTensorType t = some false) := by
  refine ⟨rfl, fun _ => rfl, fun _ => rfl, ?_⟩
  intro t htuple htensor hopt hlist
  cases t with
  | tensor => exact absurd rfl htensor
  | optional inner => exact absurd rfl (hopt inner)
  | list inner => exact absurd rfl (hlist inner)
  | tuple ts => exact absurd rfl (htuple ts)
  | int => rfl
  | bool => rfl
  | number => rfl
  | other n => rfl

/-- Witness for C4, at the types `Optional(tensor)` and `Int`. -/
theorem isTensorTypeOrWrappedTensorType_characterization_witness :
    isTensorTypeOrWrappedTensorType (Ty.optional Ty.tensor) =
      isTensorTypeOrWrappedTensorType Ty.tensor ∧
    isTensorTypeOrWrappedTensorType Ty.int = some false :=
  ⟨isTensorTypeOrWrappedTensorType_characterization.2.1 Ty.tensor,
   isTensorTypeOrWrappedTensorType_characterization.2.2.2 Ty.int
     (fun _ h => Ty.noConfusion h) (fun h => Ty.noConfusion h)
     (fun _ h => Ty.noConfusion h) (fun _ h => Ty.noConfusion h)⟩

/-- Claim C5: on every Tuple-typed input the classifier's assertion
fires (modelled as `none`, never a normal boolean result), and the
assertion is unreachable for any type whose optional/list spine is
tuple-free, i.e. under the precondition that no Tuple type reaches the
adapter. -/
theorem classifier_fails_fast_on_tuple :
    (∀ ts, isTensorTypeOrWrappedTensorType (Ty.tuple ts) = none) ∧
    (∀ t : Ty, tupleFreeSpine t = true →
      isTensorTypeOrWrappedTensorType t ≠ none) :=
  ⟨fun _ => rfl, tupleFreeSpine_classifies⟩

/-- Witness for C5: a concrete tuple type asserts; a concrete tensor
type does not. -/
theorem classifier_fails_fast_on_tuple_witness :
    isTensorTypeOrWrappedTensorType (Ty.tuple [Ty.tensor]) = none ∧
    isTensorTypeOrWrappedTensorType Ty.tensor ≠ none :=
  ⟨classifier_fails_fast_on_tuple.1 [Ty.tensor],
   classifier_fails_fast_on_tuple.2 Ty.tensor rfl⟩

/-- Claim C10: the rank surrogate (`AtenSizeOp` then `AtenLenTOp`) and
the dtype surrogate (`PrimDtypeOp`) are emitted by the local adjusters
exactly when the declared slot type is the Torch Int type and the
operand's type is directly a base tensor type; in every other case
(including tensor-ness wrapped in Optional/List) the local adjusters
return the operand unchanged. -/
theorem adjusters_emit_only_for_int_slot_and_base_tensor
    (operand : Value) (desiredType : Ty) :
    (desiredType = Ty.int → operand.getType = Ty.tensor →
      rankArgAdjuster operand desiredType =
        Value.atenLenT (Value.atenSize operand (Ty.list Ty.int)) desiredType ∧
      dtypeArgAdjuster operand desiredType = Value.primDtype operand desiredType) ∧
    (¬(desiredType = Ty.int ∧ operand.getType = Ty.tensor) →
      rankArgAdjuster operand desiredType = operand ∧
      dtypeArgAdjuster operand desiredType = operand) := by
  constructor
  · intro h1 h2
    unfold rankArgAdjuster dtypeArgAdjuster
    rw [h1, h2]
    exact ⟨rfl, rfl⟩
  · intro h
    have hcond : (desiredType.isInt && operand.getType.isBaseTensor) = false := by
      cases hi : desiredType.isInt with
      | false => rfl
      | true =>
        cases hb : operand.getType.isBaseTensor with
        | false => rfl
        | true =>
          exact absurd ⟨(Ty.isInt_iff _).mp hi, (Ty.isBaseTensor_iff _).mp hb⟩ h
    unfold rankArgAdjuster dtypeArgAdjuster
    rw [hcond]
    exact ⟨rfl, rfl⟩

/-- Witness for C10: a direct tensor operand with an Int slot gets the
surrogates; an optional-wrapped tensor operand is returned unchanged. -/
theorem adjusters_emit_only_for_int_slot_and_base_tensor_witness :
    (rankArgAdjuster (Value.arg 0 Ty.tensor) Ty.int =
       Value.atenLenT (Value.atenSize (Value.arg 0 Ty.tensor) (Ty.list Ty.int)) Ty.int ∧
     dtypeArgAdjuster (Value.arg 0 Ty.tensor) Ty.int =
       Value.primDtype (Value.arg 0 Ty.tensor) Ty.int) ∧
    (rankArgAdjuster (Value.arg 1 (Ty.optional Ty.tensor)) Ty.int =
       Value.arg 1 (Ty.optional Ty.tensor) ∧
     dtypeArgAdjuster (Value.arg 1 (Ty.optional Ty.tensor)) Ty.int =
       Value.arg 1 (Ty.optional Ty.tensor)) :=
  ⟨(adjusters_emit_only_for_int_slot_and_base_tensor (Value.arg 0 Ty.tensor) Ty.int).1 rfl rfl,
   (adjusters_emit_only_for_int_slot_and_base_tensor
       (Value.arg 1 (Ty.optional Ty.tensor)) Ty.int).2 (fun hc => Ty.noConfusion hc.2)⟩

/-! ### Claims about `dtypeFunctionArgsBuilder` -/

/-- Counterexample to claim C2 as stated: at the concrete input of one
tensor operand against a one-slot signature, `dtypeFunctionArgsBuilder`
trips the `assert` on line 83 (modelled `assertFail`, a process abort in
assertion-enabled builds), which is not the recoverable `failure()`
value. -/
theorem builder_insufficient_slots_asserts_counterexample :
    dtypeFunctionArgsBuilder [Value.arg 0 Ty.tensor] [Ty.int] =
      BuilderResult.assertFail ∧
    BuilderResult.assertFail ≠ BuilderResult.failure :=
  ⟨rfl, fun h => BuilderResult.noConfusion h⟩

/-- Claim C2 (amended): for every tensor-or-wrapped-tensor operand
reached when fewer than two signature slots remain, the builder trips a
C `assert` (fail-fast abort, like the tuple precondition) rather than
returning the recoverable `failure()` value; the recoverable failure
returns come only from `adjustFunctionArg` failures. -/
theorem builder_asserts_on_insufficient_slots (adjust : AdjustFn)
    (operand : Value) (rest : List Value) (sig : List Ty)
    (htensor : isTensorTypeOrWrappedTensorType operand.getType = some true)
    (hlen : sig.length < 2) :
    dtypeFunctionArgsBuilderWith adjust (operand :: rest) sig =
      BuilderResult.assertFail := by
  match sig with
  | [] => rfl
  | [t] => simp [dtypeFunctionArgsBuilderWith, htensor]
  | t1 :: t2 :: ts => exact absurd hlen (by simp)

/-- Witness for C2 (amended): a concrete tensor operand against a
one-slot signature. -/
theorem builder_asserts_on_insufficient_slots_witness :
    isTensorTypeOrWrappedTensorType (Value.arg 0 Ty.tensor).getType = some true ∧
    ([Ty.int] : List Ty).length < 2 ∧
    dtypeFunctionArgsBuilderWith adjustFunctionArg [Value.arg 0 Ty.tensor] [Ty.int] =
      BuilderResult.assertFail :=
  ⟨rfl, by decide,
   builder_asserts_on_insufficient_slots adjustFunctionArg (Value.arg 0 Ty.tensor)
     [] [Ty.int] rfl (by decide)⟩

/-- Counterexample to claim C3 as stated: at one non-tensor operand
against a two-slot signature, the builder returns success with one
adapted operand while the declared arity is two — the signature cursor
is not fully consumed, and no check rejects this. -/
theorem builder_success_without_full_consumption_counterexample :
    dtypeFunctionArgsBuilder [Value.arg 0 Ty.int] [Ty.int, Ty.int] =
      BuilderResult.ok [Value.arg 0 Ty.int] ∧
    ([Value.arg 0 Ty.int] : List Value).length ≠ ([Ty.int, Ty.int] : List Ty).length :=
  ⟨rfl, by decide⟩

/-- Claim C3 (amended): whenever the builder returns success, the number
of adapted operands equals the number of signature slots actually
consumed (two per tensor-or-wrapped-tensor operand, one per other
operand), and that consumption never exceeds the declared arity; but
the builder performs no end-of-loop check that the cursor is fully
consumed, so success with leftover signature slots (adapted count below
the declared arity) is possible. -/
theorem builder_ok_length_eq_consumed (adjust : AdjustFn) :
    ∀ (operands : List Value) (sig : List Ty) (args : List Value),
    dtypeFunctionArgsBuilderWith adjust operands sig = BuilderResult.ok args →
    args.length = (operands.map operandSlotWeight).sum ∧
    (operands.map operandSlotWeight).sum ≤ sig.length := by
  intro operands
  induction operands with
  | nil =>
    intro sig args h
    simp [dtypeFunctionArgsBuilderWith] at h
    subst h
    simp
  | cons operand rest ih =>
    intro sig args h
    match sig with
    | [] => simp [dtypeFunctionArgsBuilderWith] at h
    | desiredType :: restTypes =>
      cases hcls : isTensorTypeOrWrappedTensorType operand.getType with
      | none => simp [dtypeFunctionArgsBuilderWith, hcls] at h
      | some b =>
        cases b with
        | false =>
          cases hadj : adjust operand desiredType identityAdjuster with
          | none => simp [dtypeFunctionArgsBuilderWith, hcls, hadj] at h
          | some v =>
            cases hrec : dtypeFunctionArgsBuilderWith adjust rest restTypes with
            | ok args' =>
              have hih := ih restTypes args' hrec
              simp [dtypeFunctionArgsBuilderWith, hcls, hadj, hrec] at h
              subst h
              constructor
              · simp only [List.length_cons, List.map_cons, List.sum_cons,
                  operandSlotWeight, hcls, hih.1]
                omega
              · simp only [List.map_cons, List.sum_cons, operandSlotWeight, hcls,
                  List.length_cons]
                omega
            | failure => simp [dtypeFunctionArgsBuilderWith, hcls, hadj, hrec] at h
            | assertFail => simp [dtypeFunctionArgsBuilderWith, hcls, hadj, hrec] at h
        | true =>
          match restTypes with
          | [] => simp [dtypeFunctionArgsBuilderWith, hcls] at h
          | t2 :: ts2 =>
            cases hadj1 : adjust operand desiredType rankArgAdjuster with
            | none => simp [dtypeFunctionArgsBuilderWith, hcls, hadj1] at h
            | some rankArg =>
              cases hadj2 : adjust operand t2 dtypeArgAdjuster with
              | none => simp [dtypeFunctionArgsBuilderWith, hcls, hadj1, hadj2] at h
              | some dtypeArg =>
                cases hrec : dtypeFunctionArgsBuilderWith adjust rest ts2 with
                | ok args' =>
                  have hih := ih ts2 args' hrec
                  simp [dtypeFunctionArgsBuilderWith, hcls, hadj1, hadj2, hrec] at h
                  subst h
                  constructor
                  · simp only [List.length_cons, List.map_cons, List.sum_cons,
                      operandSlotWeight, hcls, hih.1]
                    omega
                  · simp only [List.map_cons, List.sum_cons, operandSlotWeight, hcls,
                      List.length_cons]
                    omega
                | failure =>
                  simp [dtypeFunctionArgsBuilderWith, hcls, hadj1, hadj2, hrec] at h
                | assertFail =>
                  simp [dtypeFunctionArgsBuilderWith, hcls, hadj1, hadj2, hrec] at h

/-- Witness for C3 (amended): one tensor operand against a three-slot
signature succeeds with two adapted operands, consuming two of the
three slots. -/
theorem builder_ok_length_eq_consumed_witness :
    ([Value.atenLenT (Value.atenSize (Value.arg 0 Ty.tensor) (Ty.list Ty.int)) Ty.int,
      Value.primDtype (Value.arg 0 Ty.tensor) Ty.int] : List Value).length =
      (([Value.arg 0 Ty.tensor] : List Value).map operandSlotWeight).sum ∧
    (([Value.arg 0 Ty.tensor] : List Value).map operandSlotWeight).sum ≤
      ([Ty.int, Ty.int, Ty.int] : List Ty).length :=
  builder_ok_length_eq_consumed adjustFunctionArg [Value.arg 0 Ty.tensor]
    [Ty.int, Ty.int, Ty.int]
    [Value.atenLenT (Value.atenSize (Value.arg 0 Ty.tensor) (Ty.list Ty.int)) Ty.int,
     Value.primDtype (Value.arg 0 Ty.tensor) Ty.int] rfl

/-- Claim C7 (end-to-end scenario A): an operation with operands
`(tensor, int)` whose dtype function has signature `(int, int, int)`
adapts to exactly the three values `len(size(tensor))`,
`dtypeof(tensor)`, and the int operand — the first built by an
`AtenSizeOp` followed by an `AtenLenTOp` on the tensor operand, the
second by a `PrimDtypeOp` on the same operand. -/
theorem builder_scenario_tensor_int :
    dtypeFunctionArgsBuilder [Value.arg 0 Ty.tensor, Value.arg 1 Ty.int]
      [Ty.int, Ty.int, Ty.int] =
    BuilderResult.ok
      [Value.atenLenT (Value.atenSize (Value.arg 0 Ty.tensor) (Ty.list Ty.int)) Ty.int,
       Value.primDtype (Value.arg 0 Ty.tensor) Ty.int,
       Value.arg 1 Ty.int] := rfl

/-- Claim C1's decomposition, stated in the spec's words: an operand
list contributes per-operand chunks, where a tensor-or-wrapped-tensor
operand contributes exactly the two values produced by adjusting it
with `rankArgAdjuster` (first) and `dtypeArgAdjuster` (second) against
some signature slots, and any other operand contributes exactly the one
value produced by adjusting it with the identity base transformation,
in the same relative order as the operands. -/
inductive ChunkedContribution (adjust : AdjustFn) :
    List Value → List (List Value) → Prop where
  | nil : ChunkedContribution adjust [] []
  | tensorLike {operand : Value} {rest : List Value} {rankArg dtypeArg : Value}
      {chunks : List (List Value)} (t1 t2 : Ty) :
      isTensorTypeOrWrappedTensorType operand.getType = some true →
      adjust operand t1 rankArgAdjuster = some rankArg →
      adjust operand t2 dtypeArgAdjuster = some dtypeArg →
      ChunkedContribution adjust rest chunks →
      ChunkedContribution adjust (operand :: rest) ([rankArg, dtypeArg] :: chunks)
  | nonTensor {operand : Value} {rest : List Value} {v : Value}
      {chunks : List (List Value)} (t : Ty) :
      isTensorTypeOrWrappedTensorType operand.getType = some false →
      adjust operand t identityAdjuster = some v →
      ChunkedContribution adjust rest chunks →
      ChunkedContribution adjust (operand :: rest) ([v] :: chunks)

/-- Claim C1: whenever the builder succeeds, the adapted list is the
in-order concatenation of per-operand chunks: each tensor-or-wrapped
operand contributes exactly two consecutive values (rank surrogate
first, dtype surrogate second), each other operand exactly one
(adjusted original) value. -/
theorem builder_ok_chunked (adjust : AdjustFn) :
    ∀ (operands : List Value) (sig : List Ty) (args : List Value),
    dtypeFunctionArgsBuilderWith adjust operands sig = BuilderResult.ok args →
    ∃ chunks : List (List Value),
      args = chunks.flatten ∧ chunks.length = operands.length ∧
      ChunkedContribution adjust operands chunks := by
  intro operands
  induction operands with
  | nil =>
    intro sig args h
    simp [dtypeFunctionArgsBuilderWith] at h
    subst h
    exact ⟨[], rfl, rfl, ChunkedContribution.nil⟩
  | cons operand rest ih =>
    intro sig args h
    match sig with
    | [] => simp [dtypeFunctionArgsBuilderWith] at h
    | desiredType :: restTypes =>
      cases hcls : isTensorTypeOrWrappedTensorType operand.getType with
      | none => simp [dtypeFunctionArgsBuilderWith, hcls] at h
      | some b =>
        cases b with
        | false =>
          cases hadj : adjust operand desiredType identityAdjuster with
          | none => simp [dtypeFunctionArgsBuilderWith, hcls, hadj] at h
          | some v =>
            cases hrec : dtypeFunctionArgsBuilderWith adjust rest restTypes with
            | ok args' =>
              obtain ⟨chunks, hjoin, hlen, hchunk⟩ := ih restTypes args' hrec
              simp [dtypeFunctionArgsBuilderWith, hcls, hadj, hrec] at h
              subst h
              refine ⟨[v] :: chunks, ?_, ?_, ?_⟩
              · simp [hjoin]
              · simp [hlen]
              · exact ChunkedContribution.nonTensor desiredType hcls hadj hchunk
            | failure => simp [dtypeFunctionArgsBuilderWith, hcls, hadj, hrec] at h
            | assertFail => simp [dtypeFunctionArgsBuilderWith, hcls, hadj, hrec] at h
        | true =>
          match restTypes with
          | [] => simp [dtypeFunctionArgsBuilderWith, hcls] at h
          | t2 :: ts2 =>
            cases hadj1 : adjust operand desiredType rankArgAdjuster with
            | none => simp [dtypeFunctionArgsBuilderWith, hcls, hadj1] at h
            | some rankArg =>
              cases hadj2 : adjust operand t2 dtypeArgAdjuster with
              | none => simp [dtypeFunctionArgsBuilderWith, hcls, hadj1, hadj2] at h
              | some dtypeArg =>
                cases hrec : dtypeFunctionArgsBuilderWith adjust rest ts2 with
                | ok args' =>
                  obtain ⟨chunks, hjoin, hlen, hchunk⟩ := ih ts2 args' hrec
                  simp [dtypeFunctionArgsBuilderWith, hcls, hadj1, hadj2, hrec] at h
                  subst h
                  refine ⟨[rankArg, dtypeArg] :: chunks, ?_, ?_, ?_⟩
                  · simp [hjoin]
                  · simp [hlen]
                  · exact ChunkedContribution.tensorLike desiredType t2 hcls hadj1 hadj2 hchunk
                | failure =>
                  simp [dtypeFunctionArgsBuilderWith, hcls, hadj1, hadj2, hrec] at h
                | assertFail =>
                  simp [dtypeFunctionArgsBuilderWith, hcls, hadj1, hadj2, hrec] at h

/-- Witness for C1 at the operands `(tensor, int)` against the
signature `(int, int, int)`. -/
theorem builder_ok_chunked_witness :
    ∃ chunks : List (List Value),
      ([Value.atenLenT (Value.atenSize (Value.arg 0 Ty.tensor) (Ty.list Ty.int)) Ty.int,
        Value.primDtype (Value.arg 0 Ty.tensor) Ty.int,
        Value.arg 1 Ty.int] : List Value) = chunks.flatten ∧
      chunks.length = ([Value.arg 0 Ty.tensor, Value.arg 1 Ty.int] : List Value).length ∧
      ChunkedContribution adjustFunctionArg
        [Value.arg 0 Ty.tensor, Value.arg 1 Ty.int] chunks :=
  builder_ok_chunked adjustFunctionArg [Value.arg 0 Ty.tensor, Value.arg 1 Ty.int]
    [Ty.int, Ty.int, Ty.int]
    [Value.atenLenT (Value.atenSize (Value.arg 0 Ty.tensor) (Ty.list Ty.int)) Ty.int,
     Value.primDtype (Value.arg 0 Ty.tensor) Ty.int,
     Value.arg 1 Ty.int] rfl

/-- Claim C6: if the walk is interrupted (any wrap failure), the pass
signals failure and `importLibraryFunctions` is never invoked; if the
walk completes, `importLibraryFunctions` is invoked exactly once with
the accumulated needed-function names. -/
theorem pass_imports_iff_walk_completes
    (step : Op → WalkState → Option WalkState) (ops : List Op) :
    (walkModule step ops initState = none →
      runOnOperationWith step ops = ⟨true, []⟩) ∧
    (∀ st, walkModule step ops initState = some st →
      runOnOperationWith step ops = ⟨false, [st.functionsNeeded]⟩) := by
  constructor
  · intro h
    unfold runOnOperationWith
    rw [h]
  · intro st h
    unfold runOnOperationWith
    rw [h]

/-- Witness for C6: an always-interrupting and an always-advancing walk
callback on a one-op module. -/
theorem pass_imports_iff_walk_completes_witness :
    runOnOperationWith (fun _ _ => none) [Op.mk "aten.tanh"] = ⟨true, []⟩ ∧
    runOnOperationWith (fun _ st => some st) [Op.mk "aten.tanh"] = ⟨false, [[]]⟩ :=
  ⟨(pass_imports_iff_walk_completes (fun _ _ => none) [Op.mk "aten.tanh"]).1 rfl,
   (pass_imports_iff_walk_completes (fun _ st => some st) [Op.mk "aten.tanh"]).2
     initState rfl⟩

/-- After a complete walk, the needed set equals the duplicate-free
fold of the matched library names over the initial set. -/
theorem walkModule_wrap_functionsNeeded
    (library : String → Option LibraryFn) (ws : Op → LibraryFn → Bool) :
    ∀ (ops : List Op) (st st' : WalkState),
    walkModule (wrapWithCalculateOpIfLibraryFunctionAvailable library ws) ops st =
      some st' →
    st'.functionsNeeded =
      (ops.filterMap fun op => Option.map LibraryFn.name (library op.name)).foldl
        insertIfAbsent st.functionsNeeded := by
  intro ops
  induction ops with
  | nil =>
    intro st st' h
    simp [walkModule] at h
    subst h
    simp
  | cons op rest ih =>
    intro st st' h
    cases hlib : library op.name with
    | none =>
      simp [walkModule, wrapWithCalculateOpIfLibraryFunctionAvailable, hlib] at h
      simpa [List.filterMap_cons, hlib] using ih st st' h
    | some fn =>
      cases hws : ws op fn with
      | false =>
        simp [walkModule, wrapWithCalculateOpIfLibraryFunctionAvailable, hlib, hws] at h
      | true =>
        have h' : walkModule (wrapWithCalculateOpIfLibraryFunctionAvailable library ws)
            rest ⟨insertIfAbsent st.functionsNeeded fn.name,
                  st.wrappedOps ++ [op.name]⟩ = some st' := by
          simpa [walkModule, wrapWithCalculateOpIfLibraryFunctionAvailable, hlib, hws]
            using h
        simpa [List.filterMap_cons, hlib] using
          ih ⟨insertIfAbsent st.functionsNeeded fn.name, st.wrappedOps ++ [op.name]⟩ st' h'

/-- Duplicate-free insertion preserves `Nodup`. -/
theorem foldl_insertIfAbsent_nodup :
    ∀ (names acc : List String), acc.Nodup →
    (names.foldl insertIfAbsent acc).Nodup := by
  intro names
  induction names with
  | nil => intro acc h; exact h
  | cons n rest ih =>
    intro acc h
    simp only [List.foldl_cons]
    apply ih
    unfold insertIfAbsent
    split
    · exact h
    · rename_i hmem
      simp [List.nodup_append, h, hmem]

/-- Every accumulated element comes from the initial set or the
inserted names. -/
theorem mem_foldl_insertIfAbsent :
    ∀ (names acc : List String) (x : String),
    x ∈ names.foldl insertIfAbsent acc → x ∈ acc ∨ x ∈ names := by
  intro names
  induction names with
  | nil => intro acc x h; exact Or.inl h
  | cons n rest ih =>
    intro acc x h
    simp only [List.foldl_cons] at h
    rcases ih (insertIfAbsent acc n) x h with h' | h'
    · unfold insertIfAbsent at h'
      split at h'
      · exact Or.inl h'
      · rcases List.mem_append.mp h' with h'' | h''
        · exact Or.inl h''
        · simp at h''
          subst h''
          exact Or.inr (List.mem_cons_self _ _)
    · exact Or.inr (List.mem_cons_of_mem _ h')

/-- On a complete walk, every operation with a library match was
wrapped successfully. -/
theorem walkModule_wrap_success
    (library : String → Option LibraryFn) (ws : Op → LibraryFn → Bool) :
    ∀ (ops : List Op) (st st' : WalkState),
    walkModule (wrapWithCalculateOpIfLibraryFunctionAvailable library ws) ops st =
      some st' →
    ∀ op ∈ ops, ∀ fn, library op.name = some fn → ws op fn = true := by
  intro ops
  induction ops with
  | nil => intro st st' h op hop; simp at hop
  | cons op0 rest ih =>
    intro st st' h op hop fn hfn
    rcases List.mem_cons.mp hop with heq | hmem
    · subst heq
      cases hws : ws op fn with
      | true => rfl
      | false =>
        simp [walkModule, wrapWithCalculateOpIfLibraryFunctionAvailable, hfn, hws] at h
    · cases hlib : library op0.name with
      | none =>
        simp [walkModule, wrapWithCalculateOpIfLibraryFunctionAvailable, hlib] at h
        exact ih st st' h op hmem fn hfn
      | some fn0 =>
        cases hws0 : ws op0 fn0 with
        | false =>
          simp [walkModule, wrapWithCalculateOpIfLibraryFunctionAvailable, hlib, hws0] at h
        | true =>
          have h' : walkModule (wrapWithCalculateOpIfLibraryFunctionAvailable library ws)
              rest ⟨insertIfAbsent st.functionsNeeded fn0.name,
                    st.wrappedOps ++ [op0.name]⟩ = some st' := by
            simpa [walkModule, wrapWithCalculateOpIfLibraryFunctionAvailable, hlib, hws0]
              using h
          exact ih _ st' h' op hmem fn hfn

/-- Claim C8: under the wrap utility's contract (spec-modelled
`wrapWithCalculateOpIfLibraryFunctionAvailable`), the needed-function
collection of a complete walk has no duplicate names, lists the names
in first-discovery (insertion) order, and contains only names of shadow
functions referenced by at least one successful wrap. -/
theorem neededFunctions_nodup_sound_firstDiscovery
    (library : String → Option LibraryFn) (ws : Op → LibraryFn → Bool)
    (ops : List Op) (st : WalkState)
    (h : walkModule (wrapWithCalculateOpIfLibraryFunctionAvailable library ws) ops
        initState = some st) :
    st.functionsNeeded.Nodup ∧
    st.functionsNeeded =
      firstDiscovery (ops.filterMap fun op => Option.map LibraryFn.name (library op.name)) ∧
    (∀ nm ∈ st.functionsNeeded, ∃ op, op ∈ ops ∧ ∃ fn,
      library op.name = some fn ∧ fn.name = nm ∧ ws op fn = true) := by
  have heq := walkModule_wrap_functionsNeeded library ws ops initState st h
  refine ⟨?_, ?_, ?_⟩
  · rw [heq]
    exact foldl_insertIfAbsent_nodup _ _ (by simp [initState])
  · rw [heq]
    rfl
  · intro nm hnm
    rw [heq] at hnm
    rcases mem_foldl_insertIfAbsent _ _ _ hnm with h' | h'
    · simp [initState] at h'
    · rcases List.mem_filterMap.mp h' with ⟨op, hop, hmap⟩
      rcases Option.map_eq_some'.mp hmap with ⟨fn, hfn, hname⟩
      exact ⟨op, hop, fn, hfn, hname,
        walkModule_wrap_success library ws ops initState st h op hop fn hfn⟩

/-- Witness for C8: walking `tanh, relu, tanh` against a library with
only a `tanh` entry accumulates the single dtype-function name once. -/
theorem neededFunctions_nodup_sound_firstDiscovery_witness :
    (["__torch_mlir_dtype_fn.aten.tanh"] : List String).Nodup ∧
    (["__torch_mlir_dtype_fn.aten.tanh"] : List String) =
      firstDiscovery (([Op.mk "aten.tanh", Op.mk "aten.relu", Op.mk "aten.tanh"]).filterMap
        fun op => Option.map LibraryFn.name (tanhLibrary op.name)) ∧
    (∀ nm ∈ (["__torch_mlir_dtype_fn.aten.tanh"] : List String), ∃ op,
      op ∈ [Op.mk "aten.tanh", Op.mk "aten.relu", Op.mk "aten.tanh"] ∧ ∃ fn,
      tanhLibrary op.name = some fn ∧ fn.name = nm ∧ (fun _ _ => true) op fn = true) :=
  neededFunctions_nodup_sound_firstDiscovery tanhLibrary (fun _ _ => true)
    [Op.mk "aten.tanh", Op.mk "aten.relu", Op.mk "aten.tanh"]
    ⟨["__torch_mlir_dtype_fn.aten.tanh"], ["aten.tanh", "aten.tanh"]⟩ (by decide)

/-- A walk in which no operation has a library match changes
nothing. -/
theorem walkModule_no_match
    (library : String → Option LibraryFn) (ws : Op → LibraryFn → Bool) :
    ∀ (ops : List Op) (st : WalkState), (∀ op ∈ ops, library op.name = none) →
    walkModule (wrapWithCalculateOpIfLibraryFunctionAvailable library ws) ops st =
      some st := by
  intro ops
  induction ops with
  | nil => intro st h; rfl
  | cons op rest ih =>
    intro st h
    have hlib := h op (List.mem_cons_self _ _)
    simp [walkModule, wrapWithCalculateOpIfLibraryFunctionAvailable, hlib]
    exact ih st (fun o ho => h o (List.mem_cons_of_mem _ ho))

/-- Claim C9: running the pass on a module with no remaining bare
operation matching a dtype library function performs zero wraps
(`wrappedOps` stays empty, the module is unchanged), leaves the
needed-function set empty, and imports nothing new (the single import
call receives the empty set). -/
theorem pass_noop_when_no_matches
    (library : String → Option LibraryFn) (ws : Op → LibraryFn → Bool)
    (ops : List Op) (h : ∀ op ∈ ops, library op.name = none) :
    walkModule (wrapWithCalculateOpIfLibraryFunctionAvailable library ws) ops
      initState = some initState ∧
    runOnOperation library ws ops = ⟨false, [[]]⟩ := by
  have hw := walkModule_no_match library ws ops initState h
  refine ⟨hw, ?_⟩
  unfold runOnOperation runOnOperationWith
  rw [hw]
  rfl

/-- Witness for C9: a one-op module against an empty library. -/
theorem pass_noop_when_no_matches_witness :
    walkModule (wrapWithCalculateOpIfLibraryFunctionAvailable (fun _ => none)
      (fun _ _ => true)) [Op.mk "my.op"] initState = some initState ∧
    runOnOperation (fun _ => none) (fun _ _ => true) [Op.mk "my.op"] =
      ⟨false, [[]]⟩ :=
  pass_noop_when_no_matches (fun _ => none) (fun _ _ => true) [Op.mk "my.op"]
    (fun _ _ => rfl)

end ReifyDtype

